import Mathlib

/-!
Verification of the logWise log ingestion / retrieval pipeline and its chat UI.

The UI data model and handlers are embedded from `src/ui/src` (types/container,
pages/Index.tsx, components/ContainerSidebar.tsx).  The backend pipeline
(chunker, vector store, retriever) is present in the repository only through
its documentation; those parts are modelled from the spec, as marked on each
definition.
-/

/-! ## UI data model (src/ui/src/types/container.ts) -/

/-- Message author tag, from `ChatMessage.type : 'user' | 'bot'`. -/
inductive MsgType where
  | user
  | bot
deriving DecidableEq, Repr

/-- `ChatMessage` from types/container.ts; the `Date` timestamp is embedded as
milliseconds since the epoch. -/
structure ChatMessage where
  id : String
  type : MsgType
  content : String
  timestamp : Nat
deriving DecidableEq, Repr

/-- Container lifecycle status, from `Container.status : 'running' | 'stopped' | 'paused'`. -/
inductive ContainerStatus where
  | running
  | stopped
  | paused
deriving DecidableEq, Repr

/-- `Container` from types/container.ts. -/
structure Container where
  id : String
  name : String
  image : String
  status : ContainerStatus
  created : String
  ports : Option (List String)
deriving DecidableEq, Repr

/-- `ContainerLogs` from types/container.ts. -/
structure ContainerLogs where
  containerId : String
  messages : List ChatMessage
deriving DecidableEq, Repr

/-! ## Index page state logic (src/ui/src/pages/Index.tsx) -/

/-- The read `chatLogs.find(log => log.containerId === cid)?.messages || []`
shared by `currentMessages` (Index.tsx line 53). -/
def msgsFor (chatLogs : List ContainerLogs) (cid : String) : List ChatMessage :=
  match chatLogs.find? (fun l => decide (l.containerId = cid)) with
  | some l => l.messages
  | none => []

/-- `currentMessages` from Index.tsx lines 52-54. -/
def currentMessages (selectedContainer : Option Container)
    (chatLogs : List ContainerLogs) : List ChatMessage :=
  match selectedContainer with
  | some c => msgsFor chatLogs c.id
  | none => []

/-- The `userMessage` literal built in `handleSendMessage` (Index.tsx lines 19-24). -/
def mkUserMessage (messageContent : String) (now : Nat) : ChatMessage :=
  { id := "msg-" ++ toString now ++ "-user"
    type := MsgType.user
    content := messageContent
    timestamp := now }

/-- The `botMessage` literal built in `handleSendMessage` (Index.tsx lines 26-31). -/
def mkBotMessage (messageContent : String) (now : Nat) : ChatMessage :=
  { id := "msg-" ++ toString now ++ "-bot"
    type := MsgType.bot
    content := "Received: \"" ++ messageContent ++ "\"\n\nThis is a mock response. In a real application, this would be processed by your backend and return actual container logs or execute commands."
    timestamp := now + 1000 }

/-- The `setChatLogs` updater of `handleSendMessage` (Index.tsx lines 33-49):
update the first log entry whose `containerId` matches, appending the two new
messages; if none matches, append a fresh entry at the end. -/
def appendMessages (cid : String) (u b : ChatMessage) :
    List ContainerLogs → List ContainerLogs
  | [] => [{ containerId := cid, messages := [u, b] }]
  | l :: ls =>
    if l.containerId = cid then
      { l with messages := l.messages ++ [u, b] } :: ls
    else
      l :: appendMessages cid u b ls

/-- `handleSendMessage` from Index.tsx lines 16-50: no-op without a selected
container, otherwise record the user message and the mock bot reply under the
selected container's log entry. -/
def handleSendMessage (selectedContainer : Option Container)
    (messageContent : String) (now : Nat)
    (chatLogs : List ContainerLogs) : List ContainerLogs :=
  match selectedContainer with
  | none => chatLogs
  | some c =>
    appendMessages c.id (mkUserMessage messageContent now)
      (mkBotMessage messageContent now) chatLogs

/-! ## Sidebar grouping (src/ui/src/components/ContainerSidebar.tsx lines 43-44) -/

/-- `runningContainers = containers.filter(c => c.status === 'running')`. -/
def runningContainers (containers : List Container) : List Container :=
  containers.filter (fun c => decide (c.status = ContainerStatus.running))

/-- `stoppedContainers = containers.filter(c => c.status !== 'running')`. -/
def stoppedContainers (containers : List Container) : List Container :=
  containers.filter (fun c => decide (¬ c.status = ContainerStatus.running))

/-! ## Mock data (src/ui/src/data/mockData.ts) -/

/-- `mockContainers` from mockData.ts. -/
def mockContainers : List Container :=
  [ { id := "container-1", name := "web-app", image := "nginx:latest",
      status := ContainerStatus.running, created := "2024-01-15T10:30:00Z",
      ports := some ["80:8080", "443:8443"] },
    { id := "container-2", name := "api-server", image := "node:18-alpine",
      status := ContainerStatus.running, created := "2024-01-15T11:00:00Z",
      ports := some ["3000:3000"] },
    { id := "container-3", name := "database", image := "postgres:15",
      status := ContainerStatus.running, created := "2024-01-15T09:45:00Z",
      ports := some ["5432:5432"] },
    { id := "container-4", name := "redis-cache", image := "redis:7-alpine",
      status := ContainerStatus.paused, created := "2024-01-15T12:15:00Z",
      ports := some ["6379:6379"] },
    { id := "container-5", name := "worker-queue", image := "python:3.11-slim",
      status := ContainerStatus.stopped, created := "2024-01-15T08:30:00Z",
      ports := none } ]

/-! ## Helper lemmas about the chat log update -/

theorem msgsFor_appendMessages_same (cid : String) (u b : ChatMessage) :
    ∀ logs : List ContainerLogs,
      msgsFor (appendMessages cid u b logs) cid = msgsFor logs cid ++ [u, b]
  | [] => by simp [appendMessages, msgsFor, List.find?]
  | l :: ls => by
    by_cases h : l.containerId = cid
    · simp [appendMessages, h, msgsFor, List.find?]
    · have ih := msgsFor_appendMessages_same cid u b ls
      simp only [appendMessages, if_neg h, msgsFor, List.find?, decide_eq_true_eq] at *
      simp [h, ih]

theorem msgsFor_appendMessages_other (cid cid' : String) (u b : ChatMessage)
    (hne : cid' ≠ cid) :
    ∀ logs : List ContainerLogs,
      msgsFor (appendMessages cid u b logs) cid' = msgsFor logs cid'
  | [] => by
    have hc : ¬ cid = cid' := fun hcc => hne hcc.symm
    simp [appendMessages, msgsFor, List.find?, hc]
  | l :: ls => by
    have hc : ¬ cid = cid' := fun hcc => hne hcc.symm
    by_cases h : l.containerId = cid
    · simp [appendMessages, h, msgsFor, List.find?, hc]
    · have ih := msgsFor_appendMessages_other cid cid' u b hne ls
      simp only [appendMessages, if_neg h, msgsFor, List.find?] at *
      by_cases h2 : l.containerId = cid'
      · simp [h2]
      · simp [h2, ih]

theorem msgsFor_eq_of_mem (logs : List ContainerLogs) (l : ContainerLogs)
    (cid : String) (hmem : l ∈ logs) (hcid : l.containerId = cid)
    (hnd : (logs.map ContainerLogs.containerId).Nodup) :
    msgsFor logs cid = l.messages := by
  induction logs with
  | nil => cases hmem
  | cons hd tl ih =>
    rcases List.mem_cons.mp hmem with h | h
    · subst h
      simp [msgsFor, List.find?, hcid]
    · have hnd' := hnd
      simp only [List.map_cons, List.nodup_cons] at hnd'
      have hhd : ¬ hd.containerId = cid := by
        intro hc
        exact hnd'.1 (hc ▸ hcid ▸ List.mem_map_of_mem ContainerLogs.containerId h)
      simp only [msgsFor, List.find?] at *
      simp [hhd]
      exact ih h hnd'.2

theorem msgsFor_eq_nil_of_not_mem (logs : List ContainerLogs) (cid : String)
    (habs : ∀ l ∈ logs, l.containerId ≠ cid) :
    msgsFor logs cid = [] := by
  induction logs with
  | nil => rfl
  | cons hd tl ih =>
    have hhd : ¬ hd.containerId = cid := habs hd (List.mem_cons_self hd tl)
    simp only [msgsFor, List.find?] at *
    simp [hhd]
    exact ih (fun l hl => habs l (List.mem_cons_of_mem hd hl))

/-! ## Claim theorems over the UI embedding -/

/-- C9: when no container is selected, `handleSendMessage` leaves `chatLogs`
unchanged for every message content: nothing is recorded anywhere. -/
theorem handleSendMessage_no_selection (messageContent : String) (now : Nat)
    (chatLogs : List ContainerLogs) :
    handleSendMessage none messageContent now chatLogs = chatLogs := rfl

/-- C8: with a selected container, `handleSendMessage` appends exactly a
user-typed message followed by a bot message to the log entry of the selected
container (creating the entry when absent), preserving that entry's existing
messages in order, and every other container's log entry is unchanged. -/
theorem handleSendMessage_appends (c : Container) (messageContent : String)
    (now : Nat) (chatLogs : List ContainerLogs) :
    msgsFor (handleSendMessage (some c) messageContent now chatLogs) c.id
        = msgsFor chatLogs c.id
            ++ [mkUserMessage messageContent now, mkBotMessage messageContent now]
    ∧ (mkUserMessage messageContent now).type = MsgType.user
    ∧ (mkBotMessage messageContent now).type = MsgType.bot
    ∧ ∀ cid', cid' ≠ c.id →
        msgsFor (handleSendMessage (some c) messageContent now chatLogs) cid'
          = msgsFor chatLogs cid' := by
  refine ⟨?_, rfl, rfl, ?_⟩
  · exact msgsFor_appendMessages_same c.id _ _ chatLogs
  · intro cid' hne
    exact msgsFor_appendMessages_other c.id cid' _ _ hne chatLogs

/-- Witness for C8 at concrete inputs. -/
theorem handleSendMessage_appends_witness :
    msgsFor (handleSendMessage (some (mockContainers.getD 0 { id := "x", name := "x", image := "x", status := ContainerStatus.running, created := "x", ports := none })) "hello" 7 []) "container-1"
        = [mkUserMessage "hello" 7, mkBotMessage "hello" 7]
    ∧ msgsFor (handleSendMessage (some (mockContainers.getD 0 { id := "x", name := "x", image := "x", status := ContainerStatus.running, created := "x", ports := none })) "hello" 7 []) "container-2" = [] := by
  have h := handleSendMessage_appends
    (mockContainers.getD 0 { id := "x", name := "x", image := "x", status := ContainerStatus.running, created := "x", ports := none }) "hello" 7 []
  refine ⟨?_, ?_⟩
  · have h1 := h.1
    simpa [msgsFor] using h1
  · have h2 := h.2.2.2 "container-2" (by decide)
    simpa [msgsFor] using h2

/-- C10: the sidebar's running/stopped groups partition the container list:
a container is in the running group iff its status is `running`, in the
stopped group iff its status is not `running`, and the two groups together are
a permutation of the input list. -/
theorem containerSidebar_partition (containers : List Container) :
    (∀ c, c ∈ runningContainers containers ↔
        c ∈ containers ∧ c.status = ContainerStatus.running)
    ∧ (∀ c, c ∈ stoppedContainers containers ↔
        c ∈ containers ∧ c.status ≠ ContainerStatus.running)
    ∧ (runningContainers containers ++ stoppedContainers containers).Perm containers := by
  refine ⟨?_, ?_, ?_⟩
  · intro c; simp [runningContainers, List.mem_filter]
  · intro c; simp [stoppedContainers, List.mem_filter]
  · have h := List.filter_append_perm
      (fun c => decide (c.status = ContainerStatus.running)) containers
    simpa [runningContainers, stoppedContainers, decide_not] using h

/-- Witness for C10 on the repository's mock container list. -/
theorem containerSidebar_partition_witness :
    ((mockContainers.getD 0 { id := "x", name := "x", image := "x", status := ContainerStatus.running, created := "x", ports := none }) ∈ runningContainers mockContainers
      ↔ (mockContainers.getD 0 { id := "x", name := "x", image := "x", status := ContainerStatus.running, created := "x", ports := none }) ∈ mockContainers
          ∧ (mockContainers.getD 0 { id := "x", name := "x", image := "x", status := ContainerStatus.running, created := "x", ports := none }).status = ContainerStatus.running)
    ∧ (runningContainers mockContainers ++ stoppedContainers mockContainers).Perm mockContainers := by
  have h := containerSidebar_partition mockContainers
  exact ⟨h.1 _, h.2.2⟩

/-! ## Vector store (modelled from the spec)

The repository's `app/storage/vector_store.py` is not part of the sources;
only the backend README documents it.  The three collections follow the
README's names: `main` (flat/exact), `fast` (ANN/approximate), `errors`. -/

/-- Modelled from the spec: an `IndexedChunk` of §3 — a Chunk (container
identifier, sequence number, text, severity score) plus its embedding vector.
`app/storage/vector_store.py` is missing from the sources. -/
structure IndexedChunk where
  containerId : String
  seq : Nat
  text : String
  severity : Nat
  embedding : List Int
deriving DecidableEq, Repr

/-- Modelled from the spec: the Vector Index state, one list per collection
(`docker_logs_main`, `docker_logs_fast`, `docker_logs_errors`). -/
structure VectorStoreState where
  main : List IndexedChunk
  fast : List IndexedChunk
  errors : List IndexedChunk
deriving DecidableEq, Repr

/-- The store before any upsert. -/
def emptyStore : VectorStoreState :=
  { main := [], fast := [], errors := [] }

/-- Modelled from the spec: `upsert(chunk, embedding)` of §4.3 writes into the
exact (`main`) and approximate (`fast`) collections, and additionally into the
error collection if the severity score exceeds the error threshold. -/
def upsert (threshold : Nat) (st : VectorStoreState) (ic : IndexedChunk) :
    VectorStoreState :=
  { main := st.main ++ [ic]
    fast := st.fast ++ [ic]
    errors := if threshold < ic.severity then st.errors ++ [ic] else st.errors }

/-- A sequence of upserts, in order. -/
def upsertAll (threshold : Nat) (st : VectorStoreState)
    (chunks : List IndexedChunk) : VectorStoreState :=
  chunks.foldl (upsert threshold) st

/-- Modelled from the spec: similarity of two embedding vectors (inner
product; the concrete metric is an external capability). -/
def similarity (q e : List Int) : Int :=
  (List.zipWith (fun a b => a * b) q e).sum

/-- Modelled from the spec: `search(collection, queryEmbedding,
containerFilter, limit)` of §4.3 — restrict to the given container, rank by
descending similarity, return up to `limit` chunk references. -/
def searchCollection (coll : List IndexedChunk) (queryEmbedding : List Int)
    (containerFilter : String) (limit : Nat) : List IndexedChunk :=
  ((coll.filter (fun ic => decide (ic.containerId = containerFilter))).insertionSort
    (fun a b => similarity queryEmbedding b.embedding
        ≤ similarity queryEmbedding a.embedding)).take limit

/-! ## Retriever (modelled from the spec, §4.4 and §6) -/

/-- Default requested result count `k` (spec §6: default 8). -/
def defaultK : Nat := 8

/-- Default stage-1 candidate count (spec §4.4: `initial_k = 20`). -/
def defaultInitialK : Nat := 20

/-- The request's `k` with its documented default applied. -/
def kOrDefault (k : Option Nat) : Nat := k.getD defaultK

/-- Modelled from the spec: §7's ValidationError for `k` out of bounds. -/
inductive QueryError where
  | validation
deriving DecidableEq, Repr

/-- Modelled from the spec: the query request of §6,
`{container_id, question, k?}`. -/
structure QueryRequest where
  container_id : String
  question : String
  k : Option Nat
deriving DecidableEq, Repr

/-- Modelled from the spec: the bound `1 ≤ k ≤ initial_k` of §6, rejected as a
ValidationError when violated. -/
def validateK (k : Option Nat) (initialK : Nat) : Except QueryError Nat :=
  if 1 ≤ kOrDefault k ∧ kOrDefault k ≤ initialK then Except.ok (kOrDefault k)
  else Except.error QueryError.validation

/-- Modelled from the spec: stage 2 of §4.4 — order the stage-1 candidates by
descending provider relevance score. -/
def rerankDesc (rscore : IndexedChunk → Int) (cands : List IndexedChunk) :
    List IndexedChunk :=
  cands.insertionSort (fun a b => rscore b ≤ rscore a)

/-- Modelled from the spec: the query pipeline of §4.4 — validate `k`, embed
the question, stage-1 search of the approximate collection scoped to the
request's container, rerank, truncate to the validated `k`. -/
def queryPipeline (st : VectorStoreState) (embed : String → List Int)
    (rerank : String → IndexedChunk → Int) (initialK : Nat)
    (req : QueryRequest) : Except QueryError (List IndexedChunk) :=
  match validateK req.k initialK with
  | Except.error e => Except.error e
  | Except.ok finalK =>
    Except.ok ((rerankDesc (rerank req.question)
      (searchCollection st.fast (embed req.question) req.container_id initialK)).take finalK)

/-- The query request body issued by the documented frontend integration
(`src/unnamed/part_000`, `queryLogs`): it always carries `k = 8`. -/
def queryLogsRequest (containerId question : String) : QueryRequest :=
  { container_id := containerId, question := question, k := some 8 }

/-- A sample indexed chunk used to evaluate the model at concrete inputs. -/
def demoChunk : IndexedChunk :=
  { containerId := "container-1", seq := 0,
    text := "ERROR: connection refused", severity := 4, embedding := [1, 0] }

/-- A second sample chunk, in a different container. -/
def demoChunkOther : IndexedChunk :=
  { containerId := "container-2", seq := 1,
    text := "INFO: listening on 3000", severity := 1, embedding := [0, 1] }

/-- A sample selected container matching `demoChunk`'s container. -/
def demoSel : Container :=
  { id := "container-1", name := "web-app", image := "nginx:latest",
    status := ContainerStatus.running, created := "2024-01-15T10:30:00Z",
    ports := none }

/-! ## Store and retriever lemmas -/

theorem upsertAll_eq (threshold : Nat) :
    ∀ (chunks : List IndexedChunk) (st : VectorStoreState),
      upsertAll threshold st chunks =
        { main := st.main ++ chunks
          fast := st.fast ++ chunks
          errors := st.errors
            ++ chunks.filter (fun ic => decide (threshold < ic.severity)) }
  | [], st => by simp [upsertAll]
  | c :: cs, st => by
    have ih := upsertAll_eq threshold cs (upsert threshold st c)
    simp only [upsertAll, List.foldl_cons] at *
    rw [ih]
    by_cases h : threshold < c.severity
    · simp [upsert, h, List.filter_cons, List.append_assoc]
    · simp [upsert, h, List.filter_cons, List.append_assoc]

/-- C2 (counterexample): after a single upsert the chunk is in BOTH the exact
(`main`) and approximate (`fast`) collections, so "exactly one of {exact,
approximate}, never both" fails at this concrete input. -/
theorem upsert_exactly_one_cex :
    ¬ ((demoChunk ∈ (upsert 3 emptyStore demoChunk).main
          ∧ demoChunk ∉ (upsert 3 emptyStore demoChunk).fast)
      ∨ (demoChunk ∈ (upsert 3 emptyStore demoChunk).fast
          ∧ demoChunk ∉ (upsert 3 emptyStore demoChunk).main)) := by decide

/-- C2 (amended): after every sequence of upserts, each upserted chunk is
stored in BOTH the exact and the approximate collection, and is additionally
in the error collection iff its severity score exceeds the error threshold. -/
theorem upsert_collections (threshold : Nat) (chunks : List IndexedChunk)
    (ic : IndexedChunk) (h : ic ∈ chunks) :
    ic ∈ (upsertAll threshold emptyStore chunks).main
    ∧ ic ∈ (upsertAll threshold emptyStore chunks).fast
    ∧ (ic ∈ (upsertAll threshold emptyStore chunks).errors
        ↔ threshold < ic.severity) := by
  rw [upsertAll_eq]
  refine ⟨by simp [emptyStore, h], by simp [emptyStore, h], ?_⟩
  simp [emptyStore, List.mem_filter, h]

/-- Witness for the amended C2 at a concrete chunk. -/
theorem upsert_collections_witness :
    demoChunk ∈ (upsertAll 3 emptyStore [demoChunk]).main
    ∧ demoChunk ∈ (upsertAll 3 emptyStore [demoChunk]).fast
    ∧ (demoChunk ∈ (upsertAll 3 emptyStore [demoChunk]).errors
        ↔ 3 < demoChunk.severity) :=
  upsert_collections 3 [demoChunk] demoChunk (by decide)

/-- C5: whenever the query pipeline succeeds, the reranked output is no longer
than the stage-1 candidate list, the candidate list is capped at `initial_k`,
the validated `k` is at most `initial_k`, and the output is a duplicate-free
subset of the stage-1 candidates. -/
theorem retriever_two_stage (st : VectorStoreState) (embed : String → List Int)
    (rerank : String → IndexedChunk → Int) (initialK : Nat) (req : QueryRequest)
    (out : List IndexedChunk)
    (hok : queryPipeline st embed rerank initialK req = Except.ok out)
    (hnd : st.fast.Nodup) :
    out.length ≤ (searchCollection st.fast (embed req.question)
        req.container_id initialK).length
    ∧ (searchCollection st.fast (embed req.question)
        req.container_id initialK).length ≤ initialK
    ∧ kOrDefault req.k ≤ initialK
    ∧ (∀ x ∈ out, x ∈ searchCollection st.fast (embed req.question)
        req.container_id initialK)
    ∧ out.Nodup := by
  unfold queryPipeline at hok
  cases hval : validateK req.k initialK with
  | error e => rw [hval] at hok; cases hok
  | ok fk =>
    rw [hval] at hok
    have hout : out = (rerankDesc (rerank req.question)
        (searchCollection st.fast (embed req.question)
          req.container_id initialK)).take fk := by
      injection hok with h
      exact h.symm
    have hb : kOrDefault req.k ≤ initialK := by
      unfold validateK at hval
      split at hval
      · next hcond => exact hcond.2
      · cases hval
    have hperm : (rerankDesc (rerank req.question)
        (searchCollection st.fast (embed req.question)
          req.container_id initialK)).Perm
        (searchCollection st.fast (embed req.question)
          req.container_id initialK) :=
      List.perm_insertionSort _ _
    have hndC : (searchCollection st.fast (embed req.question)
        req.container_id initialK).Nodup := by
      unfold searchCollection
      exact List.Nodup.sublist (List.take_sublist _ _)
        ((List.perm_insertionSort _ _).symm.nodup (hnd.filter _))
    refine ⟨?_, ?_, hb, ?_, ?_⟩
    · rw [hout, List.length_take, hperm.length_eq]
      exact min_le_right _ _
    · unfold searchCollection
      rw [List.length_take]
      exact min_le_left _ _
    · intro x hx
      rw [hout] at hx
      exact hperm.mem_iff.mp (List.take_subset _ _ hx)
    · rw [hout]
      exact List.Nodup.sublist (List.take_sublist _ _) (hperm.symm.nodup hndC)

/-- A sample store used to evaluate the pipeline at concrete inputs. -/
def demoStore : VectorStoreState :=
  { main := [demoChunk, demoChunkOther]
    fast := [demoChunk, demoChunkOther]
    errors := [demoChunk] }

/-- A sample query request. -/
def demoReq : QueryRequest :=
  { container_id := "container-1", question := "what failed", k := some 2 }

/-- Witness for C5 at concrete inputs. -/
theorem retriever_two_stage_witness :
    queryPipeline demoStore (fun _ => [1, 1]) (fun _ ic => Int.ofNat ic.severity)
        defaultInitialK demoReq = Except.ok [demoChunk]
    ∧ ([demoChunk] : List IndexedChunk).length
        ≤ (searchCollection demoStore.fast [1, 1] demoReq.container_id
            defaultInitialK).length
    ∧ (∀ x ∈ ([demoChunk] : List IndexedChunk),
        x ∈ searchCollection demoStore.fast [1, 1] demoReq.container_id
            defaultInitialK)
    ∧ ([demoChunk] : List IndexedChunk).Nodup := by
  have hok : queryPipeline demoStore (fun _ => [1, 1])
      (fun _ ic => Int.ofNat ic.severity) defaultInitialK demoReq
        = Except.ok [demoChunk] := rfl
  have h := retriever_two_stage demoStore (fun _ => [1, 1])
    (fun _ ic => Int.ofNat ic.severity) defaultInitialK demoReq [demoChunk]
    hok (by decide)
  exact ⟨hok, h.1, h.2.2.2.1, h.2.2.2.2⟩

/-- C6: the query request's `k` is optional with default 8 and is valid iff
`1 ≤ k ≤ initial_k`; the documented frontend integration always sends `k = 8`,
which passes validation against the default `initial_k = 20`. -/
theorem queryLogs_k_valid (containerId question : String) :
    (queryLogsRequest containerId question).k = some 8
    ∧ kOrDefault none = 8
    ∧ validateK (queryLogsRequest containerId question).k defaultInitialK
        = Except.ok 8
    ∧ (∀ kk : Nat, validateK (some kk) defaultInitialK = Except.ok kk
        ↔ 1 ≤ kk ∧ kk ≤ defaultInitialK) := by
  refine ⟨rfl, rfl, rfl, ?_⟩
  intro kk
  by_cases h : 1 ≤ kk ∧ kk ≤ defaultInitialK
  · simp [validateK, kOrDefault, h]
  · simp [validateK, kOrDefault, h]

/-- Witness for C6 at concrete inputs. -/
theorem queryLogs_k_valid_witness :
    (queryLogsRequest "container-1" "what errors occurred").k = some 8
    ∧ validateK (some 8) defaultInitialK = Except.ok 8 := by
  have h := queryLogs_k_valid "container-1" "what errors occurred"
  exact ⟨h.1, (h.2.2.2 8).mpr (by decide)⟩

/-- C7: the query pipeline is deterministic in its inputs — two runs over the
same (approximate) index with embedding and reranking providers that produce
identical outputs return the identical ranked result list. -/
theorem queryPipeline_deterministic (st1 st2 : VectorStoreState)
    (e1 e2 : String → List Int) (r1 r2 : String → IndexedChunk → Int)
    (initialK : Nat) (req : QueryRequest)
    (hst : st1.fast = st2.fast)
    (he : ∀ t, e1 t = e2 t) (hr : ∀ q c, r1 q c = r2 q c) :
    queryPipeline st1 e1 r1 initialK req
      = queryPipeline st2 e2 r2 initialK req := by
  have he' : e1 = e2 := funext he
  have hr' : r1 = r2 := funext fun q => funext fun c => hr q c
  subst he'
  subst hr'
  simp [queryPipeline, hst]

/-- Witness for C7: two stores sharing the approximate collection and
pointwise-equal providers give equal results. -/
theorem queryPipeline_deterministic_witness :
    queryPipeline { main := [demoChunk], fast := [demoChunk], errors := [] }
        (fun _ => [1, 0]) (fun _ _ => 0) defaultInitialK demoReq
      = queryPipeline { main := [], fast := [demoChunk], errors := [demoChunk] }
        (fun _ => [1, 0]) (fun _ _ => 0) defaultInitialK demoReq :=
  queryPipeline_deterministic _ _ _ _ _ _ defaultInitialK demoReq rfl
    (fun _ => rfl) (fun _ _ => rfl)

/-- C1: content displayed or retrieved for a container comes only from that
container: every chunk returned by a search scoped to container `cid` has that
container identifier, and `currentMessages` is exactly the messages of the log
entry whose `containerId` equals the selected container's id — empty when
there is no selection or no such entry. -/
theorem retrieval_scoped_to_container (coll : List IndexedChunk) (qe : List Int)
    (cid : String) (lim : Nat) (sel : Container) (logs : List ContainerLogs)
    (l : ContainerLogs) :
    (∀ ic ∈ searchCollection coll qe cid lim, ic.containerId = cid)
    ∧ currentMessages none logs = []
    ∧ ((∀ l' ∈ logs, l'.containerId ≠ sel.id) →
        currentMessages (some sel) logs = [])
    ∧ (l ∈ logs → l.containerId = sel.id →
        (logs.map ContainerLogs.containerId).Nodup →
        currentMessages (some sel) logs = l.messages) := by
  refine ⟨?_, rfl, ?_, ?_⟩
  · intro ic hic
    unfold searchCollection at hic
    have h2 := (List.perm_insertionSort _ _).mem_iff.mp
      (List.take_subset _ _ hic)
    exact of_decide_eq_true (List.mem_filter.mp h2).2
  · intro h
    exact msgsFor_eq_nil_of_not_mem logs sel.id h
  · intro hmem hcid hnd
    exact msgsFor_eq_of_mem logs l sel.id hmem hcid hnd

/-- A sample chat log entry for the selected container. -/
def demoLog : ContainerLogs :=
  { containerId := "container-1", messages := [mkUserMessage "hi" 0] }

/-- Witness for C1 at concrete inputs. -/
theorem retrieval_scoped_witness :
    (∀ ic ∈ searchCollection [demoChunk, demoChunkOther] [1, 0] "container-1" 5,
        ic.containerId = "container-1")
    ∧ currentMessages (some demoSel) [demoLog] = demoLog.messages := by
  have h := retrieval_scoped_to_container [demoChunk, demoChunkOther] [1, 0]
    "container-1" 5 demoSel [demoLog] demoLog
  exact ⟨h.1, h.2.2.2 (by decide) (by decide) (by decide)⟩

/-! ## Log chunker (modelled from the spec, §4.2)

`app/ingestion/streamer.py` is not part of the sources; the chunker is
modelled from spec §4.2 for a single container's line stream (per-container
streams are independent).  Text is embedded as `List Char`.  The elapsed-time
trigger involves real time and is not modelled; the size and line-count
triggers and the forced flush on stop are. -/

/-- Modelled from the spec: the recognized chunking options of §4.2
(`timeout_seconds` is omitted: real time is outside the embedding). -/
structure ChunkerConfig where
  maxChunkSize : Nat
  minChunkSize : Nat
  maxLines : Nat
  overlapChars : Nat
deriving DecidableEq, Repr

/-- Modelled from the spec: an emitted chunk — its overlap carried from the
previous chunk, its own (non-overlap) body, its source line count, and whether
it was produced by the forced flush on container stop. -/
structure Chunk where
  ovl : List Char
  body : List Char
  lineCount : Nat
  isFlush : Bool
deriving DecidableEq, Repr

/-- The chunk's full text: the overlap carried from the previous chunk,
followed by the buffered body. -/
def Chunk.text (c : Chunk) : List Char := c.ovl ++ c.body

/-- Modelled from the spec: the chunker's in-flight buffer, its line count,
and the trailing text carried over from the previously emitted chunk. -/
structure ChunkerState where
  buf : List Char
  bufLines : Nat
  carry : List Char
deriving DecidableEq, Repr

/-- The chunker's state before any line of a container has been seen. -/
def initState : ChunkerState := { buf := [], bufLines := 0, carry := [] }

/-- The last `k` elements of a list (the trailing text kept as overlap). -/
def takeLast (l : List Char) (k : Nat) : List Char := l.drop (l.length - k)

/-- Modelled from the spec: append one line to the in-flight buffer; emit a
chunk when the buffer length reaches `max_chunk_size` or the buffer reaches
`max_lines`, prefixing it with up to `overlap_chars` of trailing text of the
previous chunk. -/
def feedLine (cfg : ChunkerConfig) (st : ChunkerState) (line : List Char) :
    List Chunk × ChunkerState :=
  let buf := st.buf ++ line
  let n := st.bufLines + 1
  if cfg.maxChunkSize ≤ buf.length ∨ cfg.maxLines ≤ n then
    let ch : Chunk := { ovl := st.carry, body := buf, lineCount := n, isFlush := false }
    ([ch], { buf := [], bufLines := 0, carry := takeLast ch.text cfg.overlapChars })
  else
    ([], { buf := buf, bufLines := n, carry := st.carry })

/-- Feed a container's line stream through the chunker, in arrival order. -/
def runChunker (cfg : ChunkerConfig) (st : ChunkerState) :
    List (List Char) → List Chunk × ChunkerState
  | [] => ([], st)
  | line :: rest =>
    let fed := feedLine cfg st line
    let next := runChunker cfg fed.2 rest
    (fed.1 ++ next.1, next.2)

/-- Modelled from the spec: the forced flush on container stop — emit the
partial buffer, if any, even when shorter than `min_chunk_size`. -/
def flushChunks (st : ChunkerState) : List Chunk :=
  if st.buf = [] then []
  else [{ ovl := st.carry, body := st.buf, lineCount := st.bufLines, isFlush := true }]

/-- All chunks emitted for a container's line stream, the forced flush on its
stop included. -/
def chunkStream (cfg : ChunkerConfig) (lines : List (List Char)) : List Chunk :=
  (runChunker cfg initState lines).1 ++ flushChunks (runChunker cfg initState lines).2

/-! ## Chunker lemmas -/

theorem runChunker_join (cfg : ChunkerConfig) :
    ∀ (lines : List (List Char)) (st : ChunkerState),
      ((runChunker cfg st lines).1.map Chunk.body).flatten
          ++ (runChunker cfg st lines).2.buf
        = st.buf ++ lines.flatten
  | [], st => by simp [runChunker]
  | line :: rest, st => by
    have ih := runChunker_join cfg rest (feedLine cfg st line).2
    by_cases h : cfg.maxChunkSize ≤ (st.buf ++ line).length
        ∨ cfg.maxLines ≤ st.bufLines + 1
    · simp only [runChunker, feedLine, if_pos h] at ih ⊢
      simp only [List.map_append, List.flatten_append, List.map_cons, List.map_nil,
        List.flatten_cons, List.flatten_nil, List.append_nil, List.flatten] at ih ⊢
      simp [ih, List.append_assoc]
    · simp only [runChunker, feedLine, if_neg h] at ih ⊢
      simp only [List.nil_append, List.flatten_cons] at ih ⊢
      simp [ih, List.append_assoc]

theorem runChunker_first_ovl (cfg : ChunkerConfig) :
    ∀ (lines : List (List Char)) (st : ChunkerState),
      (∀ c rest, (runChunker cfg st lines).1 = c :: rest → c.ovl = st.carry)
      ∧ ((runChunker cfg st lines).1 = [] →
          (runChunker cfg st lines).2.carry = st.carry)
  | [], st => by
    refine ⟨fun c rest h => ?_, fun _ => rfl⟩
    simp [runChunker] at h
  | line :: rest, st => by
    have ih := runChunker_first_ovl cfg rest (feedLine cfg st line).2
    by_cases h : cfg.maxChunkSize ≤ (st.buf ++ line).length
        ∨ cfg.maxLines ≤ st.bufLines + 1
    · simp only [runChunker, feedLine, if_pos h] at ih ⊢
      refine ⟨fun c r hcr => ?_, fun hnil => ?_⟩
      · rw [List.cons_append] at hcr
        injection hcr with h1 _
        rw [← h1]
      · rw [List.cons_append] at hnil
        cases hnil
    · simp only [runChunker, feedLine, if_neg h] at ih ⊢
      simpa using ih

theorem chunkStream_bodies (cfg : ChunkerConfig) (lines : List (List Char)) :
    ((chunkStream cfg lines).map Chunk.body).flatten = lines.flatten := by
  have hrun := runChunker_join cfg lines initState
  unfold chunkStream flushChunks
  rcases hr : runChunker cfg initState lines with ⟨out, fin⟩
  rw [hr] at hrun
  simp only [initState, List.nil_append] at hrun
  by_cases hb : fin.buf = []
  · rw [hb, List.append_nil] at hrun
    simp only [if_pos hb, List.append_nil]
    exact hrun
  · simp only [if_neg hb, List.map_append, List.flatten_append, List.map_cons,
      List.map_nil, List.flatten_cons, List.flatten_nil, List.append_nil]
    exact hrun

/-- C3: for every container line stream, concatenating the successive emitted
chunks' text with each chunk's leading overlap removed reconstructs the
original stream in order, and the first chunk of a container carries no
overlap. -/
theorem chunker_reconstruction (cfg : ChunkerConfig) (lines : List (List Char)) :
    ((chunkStream cfg lines).map (fun c => c.text.drop c.ovl.length)).flatten
        = lines.flatten
    ∧ (((chunkStream cfg lines).head?.map Chunk.ovl).getD []) = [] := by
  constructor
  · have hmap : (chunkStream cfg lines).map (fun c => c.text.drop c.ovl.length)
        = (chunkStream cfg lines).map Chunk.body := by
      simp [Chunk.text, List.drop_left]
    rw [hmap]
    exact chunkStream_bodies cfg lines
  · have h := runChunker_first_ovl cfg lines initState
    unfold chunkStream flushChunks
    rcases hr : runChunker cfg initState lines with ⟨out, fin⟩
    rw [hr] at h
    cases out with
    | cons c rest =>
      have hovl : c.ovl = initState.carry := h.1 c rest rfl
      simp [hovl, initState]
    | nil =>
      have hcarry : fin.carry = initState.carry := h.2 rfl
      by_cases hb : fin.buf = []
      · simp [hb]
      · simp [hb, hcarry, initState]

/-- The chunker's running invariant: the in-flight buffer is strictly below
both emission ceilings (otherwise it would already have been emitted). -/
def StInv (cfg : ChunkerConfig) (st : ChunkerState) : Prop :=
  st.buf.length < cfg.maxChunkSize ∧ st.bufLines < cfg.maxLines

theorem runChunker_bounds (cfg : ChunkerConfig) (L : Nat)
    (hmin : cfg.minChunkSize ≤ cfg.maxChunkSize) :
    ∀ (lines : List (List Char)) (st : ChunkerState),
      StInv cfg st → (∀ l ∈ lines, l.length ≤ L) →
      (∀ c ∈ (runChunker cfg st lines).1,
          c.lineCount ≤ cfg.maxLines
          ∧ c.body.length < cfg.maxChunkSize + L
          ∧ (c.isFlush = false →
              cfg.minChunkSize ≤ c.body.length ∨ c.lineCount = cfg.maxLines))
      ∧ StInv cfg (runChunker cfg st lines).2
  | [], st => fun hst _ => by
    refine ⟨fun c hc => ?_, hst⟩
    simp [runChunker] at hc
  | line :: rest, st => fun hst hL => by
    have hline : line.length ≤ L := hL line (List.mem_cons_self _ _)
    have hLrest : ∀ l ∈ rest, l.length ≤ L :=
      fun l hl => hL l (List.mem_cons_of_mem _ hl)
    by_cases h : cfg.maxChunkSize ≤ (st.buf ++ line).length
        ∨ cfg.maxLines ≤ st.bufLines + 1
    · have hinv2 : StInv cfg (feedLine cfg st line).2 := by
        simp only [feedLine, if_pos h]
        exact ⟨Nat.lt_of_le_of_lt (Nat.zero_le _) hst.1,
          Nat.lt_of_le_of_lt (Nat.zero_le _) hst.2⟩
      have ih := runChunker_bounds cfg L hmin rest (feedLine cfg st line).2
        hinv2 hLrest
      simp only [runChunker, feedLine, if_pos h] at ih ⊢
      refine ⟨fun c hc => ?_, ih.2⟩
      rcases List.mem_cons.mp hc with hc1 | hc2
      · subst hc1
        refine ⟨Nat.succ_le_of_lt hst.2, ?_, fun _ => ?_⟩
        · rw [List.length_append]
          exact Nat.add_lt_add_of_lt_of_le hst.1 hline
        · rcases h with hsz | hln
          · exact Or.inl (Nat.le_trans hmin hsz)
          · exact Or.inr (Nat.le_antisymm (Nat.succ_le_of_lt hst.2) hln)
      · exact ih.1 c hc2
    · have hinv2 : StInv cfg (feedLine cfg st line).2 := by
        simp only [feedLine, if_neg h]
        have h' := not_or.mp h
        exact ⟨Nat.lt_of_not_le h'.1, Nat.lt_of_not_le h'.2⟩
      have ih := runChunker_bounds cfg L hmin rest (feedLine cfg st line).2
        hinv2 hLrest
      simp only [runChunker, feedLine, if_neg h] at ih ⊢
      simpa using ih

/-- C4 (amended): assuming `1 ≤ max_chunk_size`, `1 ≤ max_lines`,
`min_chunk_size ≤ max_chunk_size` and every input line of at most `L`
characters, every emitted chunk has at most `max_lines` source lines and a
non-overlap body shorter than `max_chunk_size + L`, and every chunk other than
a forced flush either meets the `min_chunk_size` floor or was emitted by the
line-count trigger with exactly `max_lines` lines; a forced flush (and a
line-count emission) may be shorter than `min_chunk_size`. -/
theorem chunker_bounds (cfg : ChunkerConfig) (lines : List (List Char)) (L : Nat)
    (hmax : 1 ≤ cfg.maxChunkSize) (hml : 1 ≤ cfg.maxLines)
    (hmin : cfg.minChunkSize ≤ cfg.maxChunkSize)
    (hL : ∀ l ∈ lines, l.length ≤ L) :
    ∀ c ∈ chunkStream cfg lines,
      c.lineCount ≤ cfg.maxLines
      ∧ c.body.length < cfg.maxChunkSize + L
      ∧ (c.isFlush = false →
          cfg.minChunkSize ≤ c.body.length ∨ c.lineCount = cfg.maxLines) := by
  have hst : StInv cfg initState := ⟨hmax, hml⟩
  have h := runChunker_bounds cfg L hmin lines initState hst hL
  intro c hc
  unfold chunkStream at hc
  rcases List.mem_append.mp hc with hc1 | hc2
  · exact h.1 c hc1
  · have hinv := h.2
    unfold flushChunks at hc2
    by_cases hb : (runChunker cfg initState lines).2.buf = []
    · rw [if_pos hb] at hc2
      cases hc2
    · rw [if_neg hb] at hc2
      rcases List.mem_singleton.mp hc2 with rfl
      refine ⟨Nat.le_of_lt hinv.2, ?_, fun hfl => ?_⟩
      · exact Nat.lt_of_lt_of_le hinv.1 (Nat.le_add_right _ _)
      · cases hfl

/-- The configuration of the C4 counterexample. -/
def cfgC4 : ChunkerConfig :=
  { maxChunkSize := 10, minChunkSize := 5, maxLines := 2, overlapChars := 0 }

/-- The two one-character lines of the C4 counterexample. -/
def linesC4 : List (List Char) := [['a'], ['b']]

/-- C4 (counterexample): with `max_chunk_size = 10`, `min_chunk_size = 5`,
`max_lines = 2`, two one-character lines trigger a line-count emission (not a
forced flush) whose text has 2 characters, under the `min_chunk_size` floor —
so the claimed bounds fail for a chunk that is not a forced flush. -/
theorem chunker_bounds_cex :
    ¬ (∀ c ∈ chunkStream cfgC4 linesC4, c.isFlush = false →
        cfgC4.minChunkSize ≤ c.text.length
        ∧ c.text.length ≤ cfgC4.maxChunkSize
        ∧ c.lineCount ≤ cfgC4.maxLines) := by decide

/-- Witness for the amended C4 at concrete inputs. -/
theorem chunker_bounds_witness :
    (∀ l ∈ linesC4, l.length ≤ 1)
    ∧ ∀ c ∈ chunkStream cfgC4 linesC4,
        c.lineCount ≤ cfgC4.maxLines
        ∧ c.body.length < cfgC4.maxChunkSize + 1
        ∧ (c.isFlush = false →
            cfgC4.minChunkSize ≤ c.body.length ∨ c.lineCount = cfgC4.maxLines) :=
  ⟨by decide, chunker_bounds cfgC4 linesC4 1 (by decide) (by decide) (by decide)
    (by decide)⟩
